import Mathlib

/-!
Shallow embedding of the talazo-file-storage service (src/index.js):
an Express HTTP service storing files in an `uploads` directory with an
in-memory metadata map.  JavaScript runtime values that matter to the
handlers are modelled explicitly: numeric comparisons against `NaN`
(which are always false in JavaScript), `undefined` fields produced by
joining a directory listing against a map that lacks the key, and the
exception thrown by calling `.toLowerCase()` on the non-string result of
`JSON.stringify(undefined)`.
-/

namespace Talazo

/-- A JavaScript number as used in the handlers' comparisons: either a
real (integer-valued) number or `NaN`.  `NaN` arises from
`parseInt` on a non-numeric string, from `new Date(...)` on an
unparseable date string, and from arithmetic on `undefined`. -/
inductive JSNum where
  | nan : JSNum
  | num : Int → JSNum
deriving DecidableEq, Repr

/-- JavaScript `<` on numbers: any comparison involving `NaN` is false. -/
def JSNum.lt : JSNum → JSNum → Bool
  | .num a, .num b => a < b
  | _, _ => false

/-- JavaScript `>` on numbers: any comparison involving `NaN` is false. -/
def JSNum.gt : JSNum → JSNum → Bool
  | .num a, .num b => a > b
  | _, _ => false

/-- A JSON value, for caller-supplied custom metadata. -/
inductive Json where
  | null : Json
  | bool : Bool → Json
  | num : Int → Json
  | str : String → Json
  | arr : List Json → Json
  | obj : List (String × Json) → Json

mutual

/-- `JSON.stringify` on a JSON value (string escaping omitted: the
handlers only use the result for case-insensitive substring search). -/
def Json.stringify : Json → String
  | .null => "null"
  | .bool true => "true"
  | .bool false => "false"
  | .num n => toString n
  | .str s => "\x22" ++ s ++ "\x22"
  | .arr xs => "[" ++ stringifyList xs ++ "]"
  | .obj fs => "\x7b" ++ stringifyFields fs ++ "\x7d"

/-- Comma-separated stringification of a JSON array's elements. -/
def stringifyList : List Json → String
  | [] => ""
  | [x] => x.stringify
  | x :: y :: xs => x.stringify ++ "," ++ stringifyList (y :: xs)

/-- Comma-separated stringification of a JSON object's fields. -/
def stringifyFields : List (String × Json) → String
  | [] => ""
  | [(k, v)] => "\x22" ++ k ++ "\x22:" ++ v.stringify
  | (k, v) :: f :: fs =>
      "\x22" ++ k ++ "\x22:" ++ v.stringify ++ "," ++ stringifyFields (f :: fs)

end

/-- Does `needle` occur at the start of `hay`? (helper for `strIncludes`). -/
def listStarts : List Char → List Char → Bool
  | [], _ => true
  | _ :: _, [] => false
  | a :: as, b :: bs => a == b && listStarts as bs

/-- Does `needle` occur contiguously anywhere in `hay`? -/
def listHas (needle : List Char) : List Char → Bool
  | [] => needle.isEmpty
  | b :: bs => listStarts needle (b :: bs) || listHas needle bs

/-- JavaScript `s.includes(sub)`: substring containment. -/
def strIncludes (s sub : String) : Bool :=
  listHas sub.data s.data

/-- JavaScript `s.toLowerCase()` (ASCII range, which covers the
handlers' use). -/
def strToLower (s : String) : String :=
  ⟨s.data.map Char.toLower⟩

/-- Lookup in an association list, the model of `Map.get` /
JavaScript object property access (returns `none` for `undefined`). -/
def alist.find {α : Type} (l : List (String × α)) (k : String) : Option α :=
  match l with
  | [] => none
  | (k0, v) :: rest => if k0 = k then some v else alist.find rest k

/-- `Map.set` / insert-or-replace on an association list. -/
def alist.set {α : Type} (l : List (String × α)) (k : String) (v : α) :
    List (String × α) :=
  match l with
  | [] => [(k, v)]
  | (k0, v0) :: rest =>
      if k0 = k then (k0, v) :: rest else (k0, v0) :: alist.set rest k v

/-- `Map.delete` on an association list. -/
def alist.del {α : Type} (l : List (String × α)) (k : String) :
    List (String × α) :=
  l.filter (fun p => p.1 ≠ k)

/-- JavaScript object spread `\x7b...a, ...b\x7d`: keys of `b` override
keys of `a`, keys of `a` not in `b` keep their values. -/
def objMerge (a b : List (String × Json)) : List (String × Json) :=
  a.filter (fun p => (alist.find b p.1).isNone) ++ b

/-- Node `path.extname` restricted to a bare file name (no directory
separators): the suffix starting at the last dot, or the empty string if
there is no dot or the only dot is the leading character. -/
def extname (s : String) : String :=
  match s.data.reverse.findIdx? (· = '.') with
  | none => ""
  | some i =>
      let pos := s.data.length - 1 - i
      if pos = 0 then "" else ⟨s.data.drop pos⟩

/-- `getFileMetadata`'s `type` field:
`path.extname(filepath).slice(1) || 'unknown'`. -/
def typeOfName (s : String) : String :=
  let e := (extname s).drop 1
  if e = "" then "unknown" else e

/-- A metadata record held in the in-memory `fileMetadata` map
(`created` and `modified` as epoch milliseconds). -/
structure MetadataRecord where
  size : Int
  created : Int
  modified : Int
  type : String
  originalName : String
  customMetadata : List (String × Json)

/-- The observable server state: whether the `uploads` directory exists,
its listing, and the in-memory `fileMetadata` map. -/
structure ServerState where
  uploadsDirExists : Bool
  files : List String
  fileMetadata : List (String × MetadataRecord)

/-- A record of the join built by the list and search handlers:
`\x7bfilename, ...fileMetadata.get(filename)\x7d`.  `meta = none` models an
orphan (a directory entry absent from the map), whose spread contributes
nothing, leaving every metadata field `undefined`. -/
structure FileRecord where
  filename : String
  meta : Option MetadataRecord

/-- The join of the directory listing with the metadata map, as built by
`GET /files` and `GET /files/search`. -/
def joinListing (st : ServerState) : List FileRecord :=
  st.files.map (fun filename => ⟨filename, alist.find st.fileMetadata filename⟩)

/-- `GET /files`: `[]` when the uploads directory does not exist,
otherwise the joined listing (always HTTP 200 in the model, since
`readdirSync` on an existing directory succeeds). -/
def listHandler (st : ServerState) : List FileRecord :=
  if st.uploadsDirExists then joinListing st else []

/-- The query parameters of `GET /files/search`.  A `none` models an
absent (or empty-string, hence falsy) parameter, which short-circuits
the corresponding `if (param && ...)` guard.  `minSize`/`maxSize` carry
the result of `parseInt` on the supplied string (`JSNum.nan` when it is
not parseable); `dateFrom`/`dateTo` carry the epoch value of
`new Date(...)` on the supplied string (`JSNum.nan` for an Invalid
Date). -/
structure SearchParams where
  query : Option String := none
  type : Option String := none
  minSize : Option JSNum := none
  maxSize : Option JSNum := none
  dateFrom : Option JSNum := none
  dateTo : Option JSNum := none

/-- `file.size` as the number it is compared as: `NaN` for an orphan
(`undefined < n` is `NaN`-valued, hence false). -/
def FileRecord.sizeNum (f : FileRecord) : JSNum :=
  match f.meta with
  | some m => .num m.size
  | none => .nan

/-- `new Date(file.created)` as an epoch number: a valid date for a
record, `NaN` (Invalid Date) for an orphan, since
`new Date(undefined)` is invalid. -/
def FileRecord.createdNum (f : FileRecord) : JSNum :=
  match f.meta with
  | some m => .num m.created
  | none => .nan

/-- The query step of the search filter:
`if (query && !file.filename.toLowerCase().includes(query.toLowerCase()) &&
!JSON.stringify(file.customMetadata).toLowerCase().includes(query.toLowerCase()))
return false`.
Returns `.ok false` when the record is rejected, `.ok true` when it
survives this step, and `.error ()` for the `TypeError` thrown on an
orphan: there `file.customMetadata` is `undefined`,
`JSON.stringify(undefined)` is `undefined`, and `.toLowerCase()` on
`undefined` throws.  The throw is reached only when the filename check
already failed, because `&&` short-circuits. -/
def queryStep (q : String) (f : FileRecord) : Except Unit Bool :=
  if strIncludes (strToLower f.filename) (strToLower q) then .ok true
  else
    match f.meta with
    | some m =>
        .ok (strIncludes (strToLower (Json.obj m.customMetadata).stringify)
              (strToLower q))
    | none => .error ()

/-- The type step: `if (type && file.type !== type) return false`.  For
an orphan `file.type` is `undefined`, which differs from any supplied
string, so the orphan is rejected. -/
def typePass (t : Option String) (f : FileRecord) : Bool :=
  match t with
  | none => true
  | some ty =>
      match f.meta with
      | some m => m.type = ty
      | none => false

/-- The minimum-size step: `if (minSize && file.size < parseInt(minSize))
return false`; the record passes unless the comparison is true. -/
def minSizePass (ms : Option JSNum) (f : FileRecord) : Bool :=
  match ms with
  | none => true
  | some m => !(JSNum.lt f.sizeNum m)

/-- The maximum-size step: `if (maxSize && file.size > parseInt(maxSize))
return false`. -/
def maxSizePass (ms : Option JSNum) (f : FileRecord) : Bool :=
  match ms with
  | none => true
  | some m => !(JSNum.gt f.sizeNum m)

/-- The lower date step: `if (dateFrom && new Date(file.created) <
new Date(dateFrom)) return false`. -/
def dateFromPass (d : Option JSNum) (f : FileRecord) : Bool :=
  match d with
  | none => true
  | some df => !(JSNum.lt f.createdNum df)

/-- The upper date step: `if (dateTo && new Date(file.created) >
new Date(dateTo)) return false`. -/
def dateToPass (d : Option JSNum) (f : FileRecord) : Bool :=
  match d with
  | none => true
  | some dt => !(JSNum.gt f.createdNum dt)

/-- The steps of the search filter that follow the query step; none of
them can throw. -/
def laterStepsPass (p : SearchParams) (f : FileRecord) : Bool :=
  typePass p.type f && minSizePass p.minSize f && maxSizePass p.maxSize f &&
    dateFromPass p.dateFrom f && dateToPass p.dateTo f

/-- The whole filter callback of `GET /files/search` on one joined
record: the query step runs first (and may throw on an orphan), the
remaining steps run in source order. -/
def filterFile (p : SearchParams) (f : FileRecord) : Except Unit Bool :=
  match p.query with
  | none => .ok (laterStepsPass p f)
  | some q =>
      match queryStep q f with
      | .error e => .error e
      | .ok false => .ok false
      | .ok true => .ok (laterStepsPass p f)

/-- `Array.prototype.filter` with a callback that may throw: elements
are visited in order and the first exception aborts the whole call. -/
def runFilter (p : SearchParams) : List FileRecord → Except Unit (List FileRecord)
  | [] => .ok []
  | f :: fs =>
      match filterFile p f with
      | .error e => .error e
      | .ok b =>
          match runFilter p fs with
          | .error e => .error e
          | .ok rest => .ok (if b then f :: rest else rest)

/-- Outcome of `GET /files/search`: a 200 with the filtered join, or the
catch branch's 500 when the filter throws. -/
inductive SearchResult where
  | ok : List FileRecord → SearchResult
  | serverError : SearchResult

/-- `GET /files/search`: `[]` when the uploads directory does not exist;
otherwise the join is filtered, and a thrown `TypeError` lands in the
catch branch as a 500. -/
def searchHandler (st : ServerState) (p : SearchParams) : SearchResult :=
  if st.uploadsDirExists then
    match runFilter p (joinListing st) with
    | .ok results => .ok results
    | .error _ => .serverError
  else .ok []

/-- The HTTP status of a search outcome. -/
def SearchResult.status : SearchResult → Nat
  | .ok _ => 200
  | .serverError => 500

/-- The file part of an upload request as multer presents it, together
with the filesystem stat of the written file (`birthtime`/`mtime` as
epoch milliseconds). -/
structure UploadedFile where
  originalname : String
  size : Int
  birthtime : Int
  mtime : Int

/-- A `POST /upload` request.  `file = none` models a request without a
file part (multer stores nothing and `req.file` is `undefined`).
`metadata = none` models an absent (or empty, hence falsy) `metadata`
field; `some r` a supplied one carrying the outcome `r` of
`JSON.parse` on it: `none` when the parse throws, `some o` the parsed
object. -/
structure UploadRequest where
  file : Option UploadedFile
  metadata : Option (Option (List (String × Json)))

/-- Outcome of `POST /upload`. -/
inductive UploadResult where
  | noFile : UploadResult
  | uploadError : UploadResult
  | success : String → MetadataRecord → UploadResult

/-- The HTTP status of an upload outcome: 400 for a missing file part,
500 for the catch branch, 200 on success. -/
def UploadResult.status : UploadResult → Nat
  | .noFile => 400
  | .uploadError => 500
  | .success _ _ => 200

/-- `POST /upload`.  Multer's `diskStorage` runs before the handler:
it creates the uploads directory if absent and writes the file under
`Date.now() + '-' + file.originalname`.  The handler then returns 400
if there is no file part, builds the metadata record (`JSON.parse` of a
malformed `metadata` field throws here, landing in the catch branch as
a 500 with the map untouched), stores it in `fileMetadata`, and replies
with the stored filename and the record. -/
def uploadHandler (st : ServerState) (now : Int) (req : UploadRequest) :
    ServerState × UploadResult :=
  match req.file with
  | none => (st, .noFile)
  | some f =>
      let storedName := toString now ++ "-" ++ f.originalname
      let st1 : ServerState :=
        { st with uploadsDirExists := true, files := st.files ++ [storedName] }
      match req.metadata with
      | some none => (st1, .uploadError)
      | m =>
          let cm : List (String × Json) :=
            match m with
            | some (some o) => o
            | _ => []
          let md : MetadataRecord :=
            { size := f.size, created := f.birthtime, modified := f.mtime,
              type := typeOfName storedName, originalName := f.originalname,
              customMetadata := cm }
          ({ st1 with fileMetadata := alist.set st1.fileMetadata storedName md },
            .success storedName md)

/-- Outcome of `GET /files/:filename/metadata`. -/
inductive MetaResult where
  | notFoundFile : MetaResult
  | notFoundMetadata : MetaResult
  | ok : MetadataRecord → MetaResult

/-- The HTTP status of a metadata outcome: both not-found cases are
404. -/
def MetaResult.status : MetaResult → Nat
  | .notFoundFile => 404
  | .notFoundMetadata => 404
  | .ok _ => 200

/-- `GET /files/:filename/metadata`: `existsSync` on the file path
first (404 `File not found`), then the map lookup (404 `File metadata
not found`), then 200 with the record. -/
def getMetadataHandler (st : ServerState) (filename : String) : MetaResult :=
  if st.files.contains filename then
    match alist.find st.fileMetadata filename with
    | some m => .ok m
    | none => .notFoundMetadata
  else .notFoundFile

/-- `PATCH /files/:filename/metadata`: the same two existence checks,
then `\x7b...currentMetadata, customMetadata: \x7b...currentMetadata.customMetadata,
...req.body\x7d\x7d` is stored and returned. -/
def patchMetadataHandler (st : ServerState) (filename : String)
    (body : List (String × Json)) : ServerState × MetaResult :=
  if st.files.contains filename then
    match alist.find st.fileMetadata filename with
    | some cur =>
        let updated : MetadataRecord :=
          { cur with customMetadata := objMerge cur.customMetadata body }
        ({ st with fileMetadata := alist.set st.fileMetadata filename updated },
          .ok updated)
    | none => (st, .notFoundMetadata)
  else (st, .notFoundFile)

/-- Outcome of `GET /download/:filename`. -/
inductive DownloadResult where
  | notFound : DownloadResult
  | ok : String → DownloadResult

/-- The HTTP status of a download outcome. -/
def DownloadResult.status : DownloadResult → Nat
  | .notFound => 404
  | .ok _ => 200

/-- `GET /download/:filename`: `existsSync` first (404), then
`res.download` streams the file. -/
def downloadHandler (st : ServerState) (filename : String) : DownloadResult :=
  if st.files.contains filename then .ok filename else .notFound

/-- Outcome of `DELETE /files/:filename`. -/
inductive DeleteResult where
  | notFound : DeleteResult
  | ok : DeleteResult

/-- The HTTP status of a delete outcome. -/
def DeleteResult.status : DeleteResult → Nat
  | .notFound => 404
  | .ok => 200

/-- `DELETE /files/:filename`: `existsSync` first (404), then
`unlinkSync` removes the file and `fileMetadata.delete` removes the map
entry. -/
def deleteHandler (st : ServerState) (filename : String) :
    ServerState × DeleteResult :=
  if st.files.contains filename then
    ({ st with files := st.files.filter (fun f => f ≠ filename),
               fileMetadata := alist.del st.fileMetadata filename }, .ok)
  else (st, .notFound)

/-- Outcome of `GET /health`. -/
inductive HealthResult where
  | healthy : Int → HealthResult
  | unhealthy : HealthResult

/-- The HTTP status of a health outcome. -/
def HealthResult.status : HealthResult → Nat
  | .healthy _ => 200
  | .unhealthy => 500

/-- `GET /health`: creates the uploads directory when absent
(`mkdirFails` models `mkdirSync` throwing, the only statement in the
try block that can throw), then replies 200 with
`\x7bstatus: 'healthy', timestamp: new Date().toISOString()\x7d`; the
catch branch replies 500. -/
def healthHandler (st : ServerState) (now : Int) (mkdirFails : Bool) :
    ServerState × HealthResult :=
  if st.uploadsDirExists then (st, .healthy now)
  else if mkdirFails then (st, .unhealthy)
  else ({ st with uploadsDirExists := true }, .healthy now)

/-! ### Concrete fixtures used by witnesses and counterexamples -/

/-- A concrete metadata record, as produced by uploading `a.txt`. -/
def exMd : MetadataRecord :=
  { size := 10, created := 100, modified := 100, type := "txt",
    originalName := "a.txt", customMetadata := [("tag", .str "x")] }

/-- An empty server state with an existing uploads directory. -/
def exSt0 : ServerState :=
  { uploadsDirExists := true, files := [], fileMetadata := [] }

/-- A state with one file `f1` that has a metadata record. -/
def exSt1 : ServerState :=
  { uploadsDirExists := true, files := ["f1"], fileMetadata := [("f1", exMd)] }

/-- A state with file `f1` (with metadata) and an orphan `g2` (a
directory entry with no metadata record). -/
def exSt2 : ServerState :=
  { uploadsDirExists := true, files := ["f1", "g2"], fileMetadata := [("f1", exMd)] }

/-- A concrete uploaded file. -/
def exFile : UploadedFile :=
  { originalname := "a.txt", size := 3, birthtime := 7, mtime := 8 }

/-! ### Basic lemmas about the embedded operations -/

theorem JSNum.lt_nan (x : JSNum) : JSNum.lt x .nan = false := by
  cases x <;> rfl

theorem JSNum.gt_nan (x : JSNum) : JSNum.gt x .nan = false := by
  cases x <;> rfl

theorem contains_filter_ne (l : List String) (x : String) :
    (l.filter (fun f => f ≠ x)).contains x = false := by
  induction l with
  | nil => rfl
  | cons a t ih =>
      by_cases h : a = x
      · simp [List.filter, h, ih]
      · simp [List.filter, h, List.contains, List.elem, ih]
        exact fun hh => h hh.symm

theorem alist.find_append {α : Type} (l1 l2 : List (String × α)) (k : String) :
    alist.find (l1 ++ l2) k =
      match alist.find l1 k with
      | some v => some v
      | none => alist.find l2 k := by
  induction l1 with
  | nil => simp [alist.find]
  | cons p t ih =>
      obtain ⟨k0, v⟩ := p
      by_cases h : k0 = k <;> simp [alist.find, h, ih]

theorem alist.find_filter_isNone (a b : List (String × Json)) (k : String) :
    alist.find (a.filter (fun p => (alist.find b p.1).isNone)) k =
      if (alist.find b k).isNone then alist.find a k else none := by
  induction a with
  | nil => simp [alist.find]
  | cons p t ih =>
      obtain ⟨k0, v⟩ := p
      by_cases hk : k0 = k
      · subst hk
        by_cases hb : (alist.find b k0).isNone <;>
          simp [List.filter, hb, alist.find, ih]
      · by_cases hb : (alist.find b k0).isNone <;>
          simp [List.filter, hb, alist.find, hk, ih]

theorem alist.find_objMerge (a b : List (String × Json)) (k : String) :
    alist.find (objMerge a b) k =
      match alist.find b k with
      | some v => some v
      | none => alist.find a k := by
  unfold objMerge
  rw [alist.find_append, alist.find_filter_isNone]
  cases hfb : alist.find b k
  · simp [hfb]
    cases alist.find a k <;> rfl
  · simp [hfb]

theorem alist.find_set_self {α : Type} (l : List (String × α)) (k : String) (v : α) :
    alist.find (alist.set l k v) k = some v := by
  induction l with
  | nil => simp [alist.set, alist.find]
  | cons p t ih =>
      obtain ⟨k0, v0⟩ := p
      by_cases h : k0 = k <;> simp [alist.set, alist.find, h, ih]

theorem runFilter_no_query (p : SearchParams) (hq : p.query = none)
    (l : List FileRecord) :
    runFilter p l = .ok (l.filter (fun f => laterStepsPass p f)) := by
  induction l with
  | nil => rfl
  | cons f t ih =>
      cases hb : laterStepsPass p f <;>
        simp [runFilter, filterFile, hq, ih, List.filter, hb]

theorem deleteHandler_ok_gone (st st' : ServerState) (fname : String)
    (h : deleteHandler st fname = (st', .ok)) :
    st'.files.contains fname = false := by
  unfold deleteHandler at h
  by_cases hc : st.files.contains fname = true
  · rw [if_pos hc] at h
    injection h with h1 h2
    rw [← h1]
    exact contains_filter_ne st.files fname
  · rw [if_neg hc] at h
    exact DeleteResult.noConfusion (congrArg Prod.snd h)

/-! ### Claim theorems -/

/-- C1 (counterexample): the claim says an unparseable `dateFrom` bound
excludes every record.  In the code, `new Date(file.created) <
new Date(dateFrom)` compares against `NaN`, and a JavaScript comparison
involving `NaN` is false, so the `return false` guard never fires: with
an unparseable `dateFrom` the lone record of this state is still in the
200 result, not excluded. -/
theorem search_invalid_dateFrom_record_included :
    searchHandler exSt1 { dateFrom := some JSNum.nan } =
      .ok [⟨"f1", some exMd⟩] := by
  rfl

/-- C1 (amended): a supplied but unparseable `dateFrom` (or `dateTo`)
makes its date comparison evaluate against `NaN`, hence false, so the
record is never rejected by that step: the filter behaves as if the
bound were absent. -/
theorem invalid_date_bound_passthrough (p : SearchParams) (f : FileRecord) :
    (p.dateFrom = some JSNum.nan →
      dateFromPass p.dateFrom f = true ∧
      filterFile p f = filterFile { p with dateFrom := none } f) ∧
    (p.dateTo = some JSNum.nan →
      dateToPass p.dateTo f = true ∧
      filterFile p f = filterFile { p with dateTo := none } f) := by
  constructor
  · intro h
    have h1 : dateFromPass p.dateFrom f = true := by
      simp [h, dateFromPass, JSNum.lt_nan]
    refine ⟨h1, ?_⟩
    have hls : laterStepsPass p f = laterStepsPass { p with dateFrom := none } f := by
      simp [laterStepsPass, h, dateFromPass, JSNum.lt_nan]
    cases hq : p.query with
    | none => simp [filterFile, hq, hls]
    | some q =>
        cases hqs : queryStep q f with
        | error e => simp [filterFile, hq, hqs]
        | ok b => cases b <;> simp [filterFile, hq, hqs, hls]
  · intro h
    have h1 : dateToPass p.dateTo f = true := by
      simp [h, dateToPass, JSNum.gt_nan]
    refine ⟨h1, ?_⟩
    have hls : laterStepsPass p f = laterStepsPass { p with dateTo := none } f := by
      simp [laterStepsPass, h, dateToPass, JSNum.gt_nan]
    cases hq : p.query with
    | none => simp [filterFile, hq, hls]
    | some q =>
        cases hqs : queryStep q f with
        | error e => simp [filterFile, hq, hqs]
        | ok b => cases b <;> simp [filterFile, hq, hqs, hls]

/-- C1 (witness for the amended theorem): the pass-through at a
concrete record and an unparseable `dateFrom`. -/
theorem invalid_date_bound_passthrough_witness :
    dateFromPass (some JSNum.nan) ⟨"f1", some exMd⟩ = true ∧
    filterFile { dateFrom := some JSNum.nan } ⟨"f1", some exMd⟩ =
      filterFile {} ⟨"f1", some exMd⟩ :=
  (invalid_date_bound_passthrough { dateFrom := some JSNum.nan }
    ⟨"f1", some exMd⟩).1 rfl

/-- C2 (counterexample): the claim says the presence of orphans never
makes the search endpoint fail.  But for an orphan,
`file.customMetadata` is `undefined`, `JSON.stringify(undefined)` is
`undefined`, and calling `.toLowerCase()` on it throws, so a search
with a query that is not a substring of the orphan's filename lands in
the catch branch: HTTP 500, and even the matching record `f1` is not
returned. -/
theorem search_orphan_query_server_error :
    searchHandler exSt2 { query := some "zzz" } = .serverError ∧
    (searchHandler exSt2 { query := some "zzz" }).status = 500 := by
  exact ⟨rfl, rfl⟩

/-- C2 (amended): when no `query` parameter is supplied the search
cannot throw: it returns 200 with the join filtered by the remaining
steps, and every orphan (directory entry with no metadata record) that
passes those steps is included, with `meta = none` for its absent
metadata fields.  A supplied query that does not match an orphan's
filename, however, throws and turns the whole request into a 500. -/
theorem search_no_query_includes_orphans (st : ServerState) (p : SearchParams)
    (hq : p.query = none) :
    searchHandler st p =
      .ok ((listHandler st).filter (fun f => laterStepsPass p f)) ∧
    ∀ name : String, st.uploadsDirExists = true → name ∈ st.files →
      alist.find st.fileMetadata name = none →
      laterStepsPass p ⟨name, none⟩ = true →
      ∃ l, searchHandler st p = .ok l ∧ (⟨name, none⟩ : FileRecord) ∈ l := by
  have h1 : searchHandler st p =
      .ok ((listHandler st).filter (fun f => laterStepsPass p f)) := by
    by_cases hd : st.uploadsDirExists = true <;>
      simp [searchHandler, listHandler, hd, runFilter_no_query p hq]
  refine ⟨h1, ?_⟩
  intro name hdir hmem hfind hpass
  refine ⟨_, h1, ?_⟩
  simp only [listHandler, hdir, if_true]
  refine List.mem_filter.2 ⟨?_, hpass⟩
  exact List.mem_map.2 ⟨name, hmem, by simp [hfind]⟩

/-- C2 (witness for the amended theorem): concrete run of the search
with no query over a state holding a record and an orphan. -/
theorem search_no_query_includes_orphans_witness :
    searchHandler exSt2 {} =
      .ok ((listHandler exSt2).filter (fun f => laterStepsPass {} f)) :=
  (search_no_query_includes_orphans exSt2 {} rfl).1

/-- C3 (counterexample): the claim says a present but malformed
`metadata` field yields HTTP 400.  In the code `JSON.parse` throws
inside the try block and the catch replies 500 (`Error uploading
file`), not 400: only the missing-file check replies 400. -/
theorem upload_malformed_metadata_not_400 :
    (uploadHandler exSt0 5 ⟨some exFile, some none⟩).2.status = 500 ∧
    ¬ (uploadHandler exSt0 5 ⟨some exFile, some none⟩).2.status = 400 := by
  exact ⟨rfl, by decide⟩

/-- C3 (amended): an upload whose `metadata` field is present but not
well-formed JSON is answered by the catch branch: HTTP 500 with a JSON
error body (the 400 of the taxonomy is reserved for the missing-file
case). -/
theorem upload_malformed_metadata_is_500 (st : ServerState) (now : Int)
    (f : UploadedFile) :
    (uploadHandler st now ⟨some f, some none⟩).2 = .uploadError ∧
    (uploadHandler st now ⟨some f, some none⟩).2.status = 500 := by
  simp [uploadHandler, UploadResult.status]

/-- C4: uploading a file into an empty store and then listing yields
exactly one entry, whose `filename` is the stored name the upload
returned and whose `originalName` is the client-supplied original
name. -/
theorem upload_then_list_single_entry (st : ServerState) (now : Int)
    (f : UploadedFile) (m : Option (Option (List (String × Json))))
    (hfiles : st.files = []) (hmeta : st.fileMetadata = [])
    (hok : m ≠ some none) :
    ∃ md : MetadataRecord,
      (uploadHandler st now ⟨some f, m⟩).2 =
        .success (toString now ++ "-" ++ f.originalname) md ∧
      listHandler (uploadHandler st now ⟨some f, m⟩).1 =
        [⟨toString now ++ "-" ++ f.originalname, some md⟩] ∧
      md.originalName = f.originalname := by
  match m with
  | none =>
      refine ⟨_, rfl, ?_, rfl⟩
      simp [uploadHandler, listHandler, joinListing, hfiles, hmeta,
        alist.find_set_self]
  | some none => exact absurd rfl hok
  | some (some o) =>
      refine ⟨_, rfl, ?_, rfl⟩
      simp [uploadHandler, listHandler, joinListing, hfiles, hmeta,
        alist.find_set_self]

/-- C4 (witness): a concrete upload into the empty state followed by a
list. -/
theorem upload_then_list_single_entry_witness :
    ∃ md : MetadataRecord,
      (uploadHandler exSt0 5 ⟨some exFile, none⟩).2 =
        .success (toString (5 : Int) ++ "-" ++ exFile.originalname) md ∧
      listHandler (uploadHandler exSt0 5 ⟨some exFile, none⟩).1 =
        [⟨toString (5 : Int) ++ "-" ++ exFile.originalname, some md⟩] ∧
      md.originalName = exFile.originalname :=
  upload_then_list_single_entry exSt0 5 exFile none rfl rfl
    (fun h => Option.noConfusion h)

/-- C5: for an existing file with a metadata record, the metadata
update shallow-merges the request body into `customMetadata` (a key
gets the body's value when mentioned there and keeps its previous value
otherwise) and leaves `size`, `created`, `modified`, `type` and
`originalName` unchanged. -/
theorem patch_merges_custom_metadata (st : ServerState) (fname : String)
    (cur : MetadataRecord) (body : List (String × Json))
    (hfile : st.files.contains fname = true)
    (hcur : alist.find st.fileMetadata fname = some cur) :
    ∃ upd : MetadataRecord,
      patchMetadataHandler st fname body =
        ({ st with fileMetadata := alist.set st.fileMetadata fname upd }, .ok upd) ∧
      upd.size = cur.size ∧ upd.created = cur.created ∧
      upd.modified = cur.modified ∧ upd.type = cur.type ∧
      upd.originalName = cur.originalName ∧
      (∀ k : String, alist.find upd.customMetadata k =
        match alist.find body k with
        | some v => some v
        | none => alist.find cur.customMetadata k) := by
  have hmem : fname ∈ st.files := by simpa using hfile
  refine ⟨{ cur with customMetadata := objMerge cur.customMetadata body },
    ?_, rfl, rfl, rfl, rfl, rfl, ?_⟩
  · simp [patchMetadataHandler, hmem, hcur]
  · intro k
    exact alist.find_objMerge cur.customMetadata body k

/-- C5 (witness): updating `tag` to `"y"` on the concrete record. -/
theorem patch_merges_custom_metadata_witness :
    ∃ upd : MetadataRecord,
      patchMetadataHandler exSt1 "f1" [("tag", Json.str "y")] =
        ({ exSt1 with fileMetadata := alist.set exSt1.fileMetadata "f1" upd },
          .ok upd) ∧
      upd.size = exMd.size ∧ upd.created = exMd.created ∧
      upd.modified = exMd.modified ∧ upd.type = exMd.type ∧
      upd.originalName = exMd.originalName ∧
      (∀ k : String, alist.find upd.customMetadata k =
        match alist.find [("tag", Json.str "y")] k with
        | some v => some v
        | none => alist.find exMd.customMetadata k) :=
  patch_merges_custom_metadata exSt1 "f1" exMd [("tag", Json.str "y")] rfl rfl

/-- C6: after a successful delete, a get-metadata request answers 404
(`File not found`) and a download request answers 404; and in general
every file-targeting handler checks existence first, so on a state
whose listing lacks the name, get-metadata, download, metadata-update
and delete all report not-found. -/
theorem delete_then_metadata_download_404 (st st' : ServerState) (fname : String)
    (hdel : deleteHandler st fname = (st', .ok)) :
    getMetadataHandler st' fname = .notFoundFile ∧
    (getMetadataHandler st' fname).status = 404 ∧
    downloadHandler st' fname = .notFound ∧
    (downloadHandler st' fname).status = 404 ∧
    (∀ (st2 : ServerState) (g : String) (body : List (String × Json)),
      st2.files.contains g = false →
        getMetadataHandler st2 g = .notFoundFile ∧
        downloadHandler st2 g = .notFound ∧
        (patchMetadataHandler st2 g body).2 = .notFoundFile ∧
        (deleteHandler st2 g).2 = .notFound) := by
  have hgone : st'.files.contains fname = false :=
    deleteHandler_ok_gone st st' fname hdel
  have hnm : fname ∉ st'.files := by simpa using hgone
  refine ⟨?_, ?_, ?_, ?_, ?_⟩
  · simp [getMetadataHandler, hnm]
  · simp [getMetadataHandler, hnm, MetaResult.status]
  · simp [downloadHandler, hnm]
  · simp [downloadHandler, hnm, DownloadResult.status]
  · intro st2 g body hg
    have hng : g ∉ st2.files := by simpa using hg
    refine ⟨?_, ?_, ?_, ?_⟩ <;>
      simp [getMetadataHandler, downloadHandler, patchMetadataHandler,
        deleteHandler, hng]

/-- C6 (witness): deleting the concrete file `f1` and then asking for
its metadata or download. -/
theorem delete_then_metadata_download_404_witness :
    getMetadataHandler ⟨true, [], []⟩ "f1" = .notFoundFile ∧
    (getMetadataHandler ⟨true, [], []⟩ "f1").status = 404 ∧
    downloadHandler ⟨true, [], []⟩ "f1" = .notFound ∧
    (downloadHandler ⟨true, [], []⟩ "f1").status = 404 ∧
    (∀ (st2 : ServerState) (g : String) (body : List (String × Json)),
      st2.files.contains g = false →
        getMetadataHandler st2 g = .notFoundFile ∧
        downloadHandler st2 g = .notFound ∧
        (patchMetadataHandler st2 g body).2 = .notFoundFile ∧
        (deleteHandler st2 g).2 = .notFound) :=
  delete_then_metadata_download_404 exSt1 ⟨true, [], []⟩ "f1" rfl

/-- C7: whenever the directory already exists or its creation succeeds,
the health endpoint replies 200 (`healthy`) carrying the current
timestamp, and the storage directory exists afterwards; a 500
(`unhealthy`) occurs only when the directory was missing and
`mkdirSync` failed. -/
theorem health_200_and_creates_dir (st : ServerState) (now : Int)
    (mkdirFails : Bool) :
    (mkdirFails = false ∨ st.uploadsDirExists = true →
      (healthHandler st now mkdirFails).2 = .healthy now ∧
      (healthHandler st now mkdirFails).2.status = 200 ∧
      (healthHandler st now mkdirFails).1.uploadsDirExists = true) ∧
    ((healthHandler st now mkdirFails).2 = .unhealthy →
      mkdirFails = true ∧ st.uploadsDirExists = false) := by
  cases hd : st.uploadsDirExists <;> cases hm : mkdirFails <;>
    simp [healthHandler, HealthResult.status, hd, hm]

/-- C7 (witness): a concrete health call on a state without the uploads
directory, with `mkdirSync` succeeding. -/
theorem health_200_and_creates_dir_witness :
    (healthHandler ⟨false, [], []⟩ 7 false).2 = .healthy 7 ∧
    (healthHandler ⟨false, [], []⟩ 7 false).2.status = 200 ∧
    (healthHandler ⟨false, [], []⟩ 7 false).1.uploadsDirExists = true :=
  (health_200_and_creates_dir ⟨false, [], []⟩ 7 false).1 (Or.inl rfl)

/-- C8: for a record with a numeric `size` and numeric `minSize` /
`maxSize` parameters (each optional), the size filter passes exactly
when every supplied lower bound is `≤ size` and `size ≤` every supplied
upper bound — both bounds inclusive, so a record whose size equals a
bound is kept. -/
theorem size_filter_inclusive_bounds (fname : String) (m : MetadataRecord)
    (mn mx : Option Int) :
    (minSizePass (mn.map JSNum.num) ⟨fname, some m⟩ &&
      maxSizePass (mx.map JSNum.num) ⟨fname, some m⟩) = true ↔
      (∀ a ∈ mn, a ≤ m.size) ∧ (∀ b ∈ mx, m.size ≤ b) := by
  cases mn <;> cases mx <;>
    simp [minSizePass, maxSizePass, FileRecord.sizeNum, JSNum.lt, JSNum.gt,
      Int.not_lt]

/-- C9: when the file part was written but the `metadata` field fails
to parse, the handler's error leaves the metadata map untouched (no
entry for the stored filename is added) while the stored file stays in
the directory listing: the failed upload orphans the file instead of
rolling the write back. -/
theorem upload_malformed_metadata_orphans_file (st : ServerState) (now : Int)
    (f : UploadedFile) :
    (uploadHandler st now ⟨some f, some none⟩).1.fileMetadata = st.fileMetadata ∧
    (uploadHandler st now ⟨some f, some none⟩).1.files =
      st.files ++ [toString now ++ "-" ++ f.originalname] ∧
    (uploadHandler st now ⟨some f, some none⟩).2 = .uploadError := by
  simp [uploadHandler]

/-- C10: a supplied `minSize` (or `maxSize`) that `parseInt` cannot
parse makes `file.size < parseInt(minSize)` a comparison against `NaN`,
which is false, so the size step excludes no record: the filter behaves
as if the bound were absent. -/
theorem nan_size_bound_excludes_nothing (p : SearchParams) (f : FileRecord) :
    (p.minSize = some JSNum.nan →
      minSizePass p.minSize f = true ∧
      filterFile p f = filterFile { p with minSize := none } f) ∧
    (p.maxSize = some JSNum.nan →
      maxSizePass p.maxSize f = true ∧
      filterFile p f = filterFile { p with maxSize := none } f) := by
  constructor
  · intro h
    have h1 : minSizePass p.minSize f = true := by
      simp [h, minSizePass, JSNum.lt_nan]
    refine ⟨h1, ?_⟩
    have hls : laterStepsPass p f = laterStepsPass { p with minSize := none } f := by
      simp [laterStepsPass, h, minSizePass, JSNum.lt_nan]
    cases hq : p.query with
    | none => simp [filterFile, hq, hls]
    | some q =>
        cases hqs : queryStep q f with
        | error e => simp [filterFile, hq, hqs]
        | ok b => cases b <;> simp [filterFile, hq, hqs, hls]
  · intro h
    have h1 : maxSizePass p.maxSize f = true := by
      simp [h, maxSizePass, JSNum.gt_nan]
    refine ⟨h1, ?_⟩
    have hls : laterStepsPass p f = laterStepsPass { p with maxSize := none } f := by
      simp [laterStepsPass, h, maxSizePass, JSNum.gt_nan]
    cases hq : p.query with
    | none => simp [filterFile, hq, hls]
    | some q =>
        cases hqs : queryStep q f with
        | error e => simp [filterFile, hq, hqs]
        | ok b => cases b <;> simp [filterFile, hq, hqs, hls]

/-- C10 (witness): the pass-through at a concrete record and an
unparseable `minSize`. -/
theorem nan_size_bound_excludes_nothing_witness :
    minSizePass (some JSNum.nan) ⟨"f1", some exMd⟩ = true ∧
    filterFile { minSize := some JSNum.nan } ⟨"f1", some exMd⟩ =
      filterFile {} ⟨"f1", some exMd⟩ :=
  (nan_size_bound_excludes_nothing { minSize := some JSNum.nan }
    ⟨"f1", some exMd⟩).1 rfl

end Talazo
